import Mathlib

/-!
Verification of the geometric core of the Poly-Bridge-2 sandbox editor
(`game_objects.py`, `editor.py`).

The embedding works over exact rationals.  Python floats are modelled by `ℚ`;
an angle is represented by the pair of its cosine and sine values `(c, s)`
(with the unit-circle constraint `c ^ 2 + s ^ 2 = 1` stated as a hypothesis
where a proof needs it), which keeps every definition computable while staying
faithful to the source, whose `rotate` only ever consumes an angle through
`math.cos` and `math.sin`.  Pygame rasterization calls (surfaces, masks being
drawn) are outside the model; the geometric state that the claims speak about
(positions, local points, pins, anchors, the recorded center offset, raster
coordinates and the bounds check of `collidepoint`) is modelled in full.
-/

namespace PolyEditor

/-- A 2D point, as the `(x, y)` tuples and `{"x": _, "y": _}` dicts of the source. -/
@[ext]
structure Vec2 where
  x : ℚ
  y : ℚ
deriving DecidableEq

/-- A 3D point, as the `m_Pos` / `m_Scale` dicts of the source. -/
@[ext]
structure Vec3 where
  x : ℚ
  y : ℚ
  z : ℚ
deriving DecidableEq

/-- `rotate(point, angle, origin)` from `game_objects.py` (lines 52-59), with the
angle represented by its cosine `c` and sine `s`.  The third (z) component of a
3D point passes through unchanged; call sites on 3D data handle z explicitly. -/
def rotate (c s : ℚ) (p : Vec2) (o : Vec2 := ⟨0, 0⟩) : Vec2 :=
  ⟨c * (p.x - o.x) - s * (p.y - o.y) + o.x,
   s * (p.x - o.x) + c * (p.y - o.y) + o.y⟩

/-- `LayoutObject.pos` setter (`game_objects.py` lines 154-159): a 2-component
value keeps the stored z, a longer value overwrites all three components. -/
def pos_set (d : Vec3) (value : List ℚ) : Vec3 :=
  if value.length = 2 then
    ⟨value.getD 0 0, value.getD 1 0, d.z⟩
  else
    ⟨value.getD 0 0, value.getD 1 0, value.getD 2 0⟩

/-- An `Anchor` (`game_objects.py` lines 233-257): its `m_Guid` and `m_Pos`. -/
@[ext]
structure AnchorState where
  m_Guid : String
  m_Pos : Vec3
deriving DecidableEq

/-- The state of a `CustomShape` (`game_objects.py` lines 369-650) that the
geometric claims touch: the underlying dictionary fields, the bound anchors
(`self.anchors`, resolved at construction), and `self._center_offset`.
The rotation `m_RotationDegrees` is carried as its cosine `rotC` and sine
`rotS`. -/
structure CustomShapeState where
  m_Pos : Vec3
  rotC : ℚ
  rotS : ℚ
  m_Scale : Vec3
  m_Flipped : Bool
  m_PointsLocalSpace : List Vec2
  m_StaticPins : List Vec2
  m_DynamicAnchorGuids : List String
  anchors : List AnchorState
  centerOffset : Vec2
deriving DecidableEq

/-- `CustomShape.points` getter (`game_objects.py` lines 619-629): scale each
local point component-wise, negate x when flipped, rotate by the rotation. -/
def points_get (sh : CustomShapeState) : List Vec2 :=
  sh.m_PointsLocalSpace.map (fun p =>
    let point : Vec2 := ⟨p.x * sh.m_Scale.x, p.y * sh.m_Scale.y⟩
    let point := if sh.m_Flipped then ⟨-point.x, point.y⟩ else point
    rotate sh.rotC sh.rotS point)

/-- `CustomShape.points` setter (`game_objects.py` lines 630-636): rotate by the
negated rotation (cosine `c`, sine `-s`), undo the flip, divide by the scale. -/
def points_set (sh : CustomShapeState) (values : List Vec2) : CustomShapeState :=
  let values := values.map (fun p => rotate sh.rotC (-sh.rotS) p)
  let values := if sh.m_Flipped then values.map (fun p => (⟨-p.x, p.y⟩ : Vec2)) else values
  { sh with m_PointsLocalSpace :=
      values.map (fun p => (⟨p.x / sh.m_Scale.x, p.y / sh.m_Scale.y⟩ : Vec2)) }

/-- `CustomShape.pos` setter (`game_objects.py` lines 531-539): compute the
change against the old position, write the new position, then add the change
to every static pin and every bound anchor (the anchor keeps its z). -/
def cs_pos_set (sh : CustomShapeState) (value : List ℚ) : CustomShapeState :=
  let change : Vec2 := ⟨value.getD 0 0 - sh.m_Pos.x, value.getD 1 0 - sh.m_Pos.y⟩
  { sh with
    m_Pos := pos_set sh.m_Pos value,
    m_StaticPins := sh.m_StaticPins.map (fun p => ⟨p.x + change.x, p.y + change.y⟩),
    anchors := sh.anchors.map (fun a =>
      ⟨a.m_Guid, ⟨a.m_Pos.x + change.x, a.m_Pos.y + change.y, a.m_Pos.z⟩⟩) }

/-- World-absolute polygon vertices: shape position plus the world-relative
offsets returned by the `points` getter (as used in `render`, lines 424-426). -/
def world_points (sh : CustomShapeState) : List Vec2 :=
  (points_get sh).map (fun p => ⟨p.x + sh.m_Pos.x, p.y + sh.m_Pos.y⟩)

/-- C1: assigning `pos` on a `CustomShape` writes the new position and shifts
every static pin and every bound anchor by exactly
`delta = newPosition - oldPosition`, component-wise on x and y (exactly, hence
within any floating tolerance); anchors keep their z.  No pin or anchor is
left stale. -/
theorem cs_pos_set_shifts_attachments (sh : CustomShapeState) (value : List ℚ) :
    (cs_pos_set sh value).m_Pos = pos_set sh.m_Pos value ∧
    (cs_pos_set sh value).m_StaticPins = sh.m_StaticPins.map
      (fun p => ⟨p.x + (value.getD 0 0 - sh.m_Pos.x), p.y + (value.getD 1 0 - sh.m_Pos.y)⟩) ∧
    (cs_pos_set sh value).anchors = sh.anchors.map
      (fun a => ⟨a.m_Guid, ⟨a.m_Pos.x + (value.getD 0 0 - sh.m_Pos.x),
                            a.m_Pos.y + (value.getD 1 0 - sh.m_Pos.y),
                            a.m_Pos.z⟩⟩) := by
  refine ⟨rfl, rfl, rfl⟩

/-- C10: the `LayoutObject.pos` setter keeps the stored z coordinate when given
a 2-component value, and overwrites all three coordinates when given a
3-component value. -/
theorem pos_set_preserves_z (d : Vec3) (value : List ℚ) :
    (value.length = 2 →
      pos_set d value = ⟨value.getD 0 0, value.getD 1 0, d.z⟩) ∧
    (value.length = 3 →
      pos_set d value = ⟨value.getD 0 0, value.getD 1 0, value.getD 2 0⟩) := by
  constructor
  · intro h
    simp [pos_set, h]
  · intro h
    simp [pos_set, h]

/-- Witness for C10 at a concrete position and values of both arities. -/
theorem pos_set_preserves_z_witness :
    ([(4 : ℚ), 5].length = 2 ∧ pos_set ⟨1, 2, 3⟩ [4, 5] = ⟨4, 5, 3⟩) ∧
    ([(4 : ℚ), 5, 6].length = 3 ∧ pos_set ⟨1, 2, 3⟩ [4, 5, 6] = ⟨4, 5, 6⟩) :=
  ⟨⟨by decide, (pos_set_preserves_z ⟨1, 2, 3⟩ [4, 5]).1 (by decide)⟩,
   ⟨by decide, (pos_set_preserves_z ⟨1, 2, 3⟩ [4, 5, 6]).2 (by decide)⟩⟩

/-- Rotating by `(c, s)` and then by `(c, -s)` about the same origin is the
identity whenever `(c, s)` lies on the unit circle — the exact-arithmetic fact
behind rotate-then-unrotate pipelines. -/
theorem rotate_neg_rotate (c s : ℚ) (h : c ^ 2 + s ^ 2 = 1) (p o : Vec2) :
    rotate c (-s) (rotate c s p o) o = p := by
  ext
  · show c * (c * (p.x - o.x) - s * (p.y - o.y) + o.x - o.x)
        - -s * (s * (p.x - o.x) + c * (p.y - o.y) + o.y - o.y) + o.x = p.x
    linear_combination (p.x - o.x) * h
  · show -s * (c * (p.x - o.x) - s * (p.y - o.y) + o.x - o.x)
        + c * (s * (p.x - o.x) + c * (p.y - o.y) + o.y - o.y) + o.y = p.y
    linear_combination (p.y - o.y) * h

/-- Rotating by `(c, -s)` and then by `(c, s)` about the same origin is also
the identity on the unit circle (the other composition order). -/
theorem rotate_rotate_neg (c s : ℚ) (h : c ^ 2 + s ^ 2 = 1) (p o : Vec2) :
    rotate c s (rotate c (-s) p o) o = p := by
  ext
  · show c * (c * (p.x - o.x) - -s * (p.y - o.y) + o.x - o.x)
        - s * (-s * (p.x - o.x) + c * (p.y - o.y) + o.y - o.y) + o.x = p.x
    linear_combination (p.x - o.x) * h
  · show s * (c * (p.x - o.x) - -s * (p.y - o.y) + o.x - o.x)
        + c * (-s * (p.x - o.x) + c * (p.y - o.y) + o.y - o.y) + o.y = p.y
    linear_combination (p.y - o.y) * h

/-- Writing back the exact value read from the `points` getter restores every
local point: the setter pipeline (un-rotate, un-flip, un-scale) inverts the
getter pipeline (scale, flip, rotate) point by point. -/
theorem points_set_points_get_eq (sh : CustomShapeState)
    (hrot : sh.rotC ^ 2 + sh.rotS ^ 2 = 1)
    (hsx : sh.m_Scale.x ≠ 0) (hsy : sh.m_Scale.y ≠ 0) :
    points_set sh (points_get sh) = sh := by
  obtain ⟨pos, c, s, sc, fl, pts, pins, ids, ancs, off⟩ := sh
  have hc : c ^ 2 + s ^ 2 = 1 := hrot
  have hx : sc.x ≠ 0 := hsx
  have hy : sc.y ≠ 0 := hsy
  cases fl
  · simp only [points_set, points_get, Bool.false_eq_true, if_false]
    congr 1
    rw [List.map_map, List.map_map]
    refine (List.map_congr_left fun p _ => ?_).trans (List.map_id pts)
    show (⟨(rotate c (-s) (rotate c s ⟨p.x * sc.x, p.y * sc.y⟩)).x / sc.x,
           (rotate c (-s) (rotate c s ⟨p.x * sc.x, p.y * sc.y⟩)).y / sc.y⟩ : Vec2) = p
    rw [rotate_neg_rotate c s hc]
    ext
    · exact mul_div_cancel_right₀ p.x hx
    · exact mul_div_cancel_right₀ p.y hy
  · simp only [points_set, points_get, if_true]
    congr 1
    rw [List.map_map, List.map_map, List.map_map]
    refine (List.map_congr_left fun p _ => ?_).trans (List.map_id pts)
    show (⟨-(rotate c (-s) (rotate c s ⟨-(p.x * sc.x), p.y * sc.y⟩)).x / sc.x,
           (rotate c (-s) (rotate c s ⟨-(p.x * sc.x), p.y * sc.y⟩)).y / sc.y⟩ : Vec2) = p
    rw [rotate_neg_rotate c s hc]
    ext
    · show - -(p.x * sc.x) / sc.x = p.x
      rw [neg_neg]
      exact mul_div_cancel_right₀ p.x hx
    · exact mul_div_cancel_right₀ p.y hy

/-- C2: reading `points` and writing the exact value back leaves the stored
`m_PointsLocalSpace` identical (exactly, in the exact-arithmetic model), for
every shape whose rotation cosine/sine lie on the unit circle and whose scale
axes are non-zero: the setter pipeline is the mathematical inverse of the
getter pipeline. -/
theorem points_roundtrip_id (sh : CustomShapeState)
    (hrot : sh.rotC ^ 2 + sh.rotS ^ 2 = 1)
    (hsx : sh.m_Scale.x ≠ 0) (hsy : sh.m_Scale.y ≠ 0) :
    (points_set sh (points_get sh)).m_PointsLocalSpace = sh.m_PointsLocalSpace := by
  rw [points_set_points_get_eq sh hrot hsx hsy]

/-- Witness for C2: a concrete flipped shape rotated by the rational rotation
(cos, sin) = (3/5, 4/5) with scale (2, 3). -/
theorem points_roundtrip_id_witness :
    ((3 : ℚ) / 5) ^ 2 + ((4 : ℚ) / 5) ^ 2 = 1 ∧
    (points_set
        ⟨⟨5, 5, 0⟩, 3/5, 4/5, ⟨2, 3, 1⟩, true, [⟨1, 2⟩, ⟨-3, 5⟩], [], [], [], ⟨0, 0⟩⟩
        (points_get
          ⟨⟨5, 5, 0⟩, 3/5, 4/5, ⟨2, 3, 1⟩, true, [⟨1, 2⟩, ⟨-3, 5⟩], [], [], [], ⟨0, 0⟩⟩)
      ).m_PointsLocalSpace = [⟨1, 2⟩, ⟨-3, 5⟩] :=
  ⟨by norm_num,
   points_roundtrip_id
     ⟨⟨5, 5, 0⟩, 3/5, 4/5, ⟨2, 3, 1⟩, true, [⟨1, 2⟩, ⟨-3, 5⟩], [], [], [], ⟨0, 0⟩⟩
     (by norm_num) (by norm_num) (by norm_num)⟩

/-- The other composition order: reading `points` right after writing a list of
world-relative offsets returns exactly that list (scale, flip, rotate undo
un-rotate, un-flip, un-scale). -/
theorem points_get_points_set_eq (sh : CustomShapeState) (values : List Vec2)
    (hrot : sh.rotC ^ 2 + sh.rotS ^ 2 = 1)
    (hsx : sh.m_Scale.x ≠ 0) (hsy : sh.m_Scale.y ≠ 0) :
    points_get (points_set sh values) = values := by
  obtain ⟨pos, c, s, sc, fl, pts, pins, ids, ancs, off⟩ := sh
  have hc : c ^ 2 + s ^ 2 = 1 := hrot
  have hx : sc.x ≠ 0 := hsx
  have hy : sc.y ≠ 0 := hsy
  cases fl
  · simp only [points_set, points_get, Bool.false_eq_true, if_false]
    rw [List.map_map, List.map_map]
    refine (List.map_congr_left fun p _ => ?_).trans (List.map_id values)
    show rotate c s ⟨(rotate c (-s) p).x / sc.x * sc.x,
                     (rotate c (-s) p).y / sc.y * sc.y⟩ = p
    rw [div_mul_cancel₀ _ hx, div_mul_cancel₀ _ hy]
    exact rotate_rotate_neg c s hc p ⟨0, 0⟩
  · simp only [points_set, points_get, if_true]
    rw [List.map_map, List.map_map, List.map_map]
    refine (List.map_congr_left fun p _ => ?_).trans (List.map_id values)
    show rotate c s ⟨-(-(rotate c (-s) p).x / sc.x * sc.x),
                     (rotate c (-s) p).y / sc.y * sc.y⟩ = p
    rw [div_mul_cancel₀ _ hy, neg_div, neg_mul, div_mul_cancel₀ _ hx, neg_neg]
    exact rotate_rotate_neg c s hc p ⟨0, 0⟩

/-- `CustomShape.scale` setter (`game_objects.py` lines 595-610): write the new
scale (a 2-component value keeps z), compute the per-axis ratios against the
old scale, and when either ratio differs from 1 by more than 1e-6, rescale
every static pin and bound anchor about the shape position — directly in world
space, with no rotation applied. -/
def scale_set (sh : CustomShapeState) (value : List ℚ) : CustomShapeState :=
  let old_scale := sh.m_Scale
  let newScale : Vec3 :=
    if value.length = 2 then ⟨value.getD 0 0, value.getD 1 0, old_scale.z⟩
    else ⟨value.getD 0 0, value.getD 1 0, value.getD 2 0⟩
  let change : Vec2 := ⟨value.getD 0 0 / old_scale.x, value.getD 1 0 / old_scale.y⟩
  if |change.x - 1| > 1 / 1000000 ∨ |change.y - 1| > 1 / 1000000 then
    let basepos := sh.m_Pos
    { sh with
      m_Scale := newScale,
      m_StaticPins := sh.m_StaticPins.map (fun p =>
        ⟨(p.x - basepos.x) * change.x + basepos.x,
         (p.y - basepos.y) * change.y + basepos.y⟩),
      anchors := sh.anchors.map (fun a =>
        ⟨a.m_Guid, ⟨(a.m_Pos.x - basepos.x) * change.x + basepos.x,
                    (a.m_Pos.y - basepos.y) * change.y + basepos.y,
                    a.m_Pos.z⟩⟩) }
  else
    { sh with m_Scale := newScale }

/-- Modelled from the spec: the `scale` setter as §4.2 describes it — the same
ratio computation and epsilon gate, but each pin/anchor is re-projected into
the shape's unrotated frame (rotated by the negated rotation about the
position), scaled per axis there, and rotated back. -/
def scale_set_spec (sh : CustomShapeState) (value : List ℚ) : CustomShapeState :=
  let old_scale := sh.m_Scale
  let newScale : Vec3 :=
    if value.length = 2 then ⟨value.getD 0 0, value.getD 1 0, old_scale.z⟩
    else ⟨value.getD 0 0, value.getD 1 0, value.getD 2 0⟩
  let change : Vec2 := ⟨value.getD 0 0 / old_scale.x, value.getD 1 0 / old_scale.y⟩
  if |change.x - 1| > 1 / 1000000 ∨ |change.y - 1| > 1 / 1000000 then
    let basepos : Vec2 := ⟨sh.m_Pos.x, sh.m_Pos.y⟩
    let move : Vec2 → Vec2 := fun p =>
      let q := rotate sh.rotC (-sh.rotS) p basepos
      let q : Vec2 := ⟨(q.x - basepos.x) * change.x + basepos.x,
                       (q.y - basepos.y) * change.y + basepos.y⟩
      rotate sh.rotC sh.rotS q basepos
    { sh with
      m_Scale := newScale,
      m_StaticPins := sh.m_StaticPins.map move,
      anchors := sh.anchors.map (fun a =>
        ⟨a.m_Guid, ⟨(move ⟨a.m_Pos.x, a.m_Pos.y⟩).x,
                    (move ⟨a.m_Pos.x, a.m_Pos.y⟩).y, a.m_Pos.z⟩⟩) }
  else
    { sh with m_Scale := newScale }

/-- A concrete shape for the scale-setter defect: rotated 90 degrees
(cos 0, sin 1), unit scale, one static pin and one bound anchor sitting exactly
on the world position of the first vertex. -/
def shapeRot90 : CustomShapeState :=
  ⟨⟨0, 0, 0⟩, 0, 1, ⟨1, 1, 1⟩, false,
   [⟨1, 0⟩, ⟨-1, 0⟩, ⟨0, 1⟩], [⟨0, 1⟩], ["a"], [⟨"a", ⟨0, 1, 0⟩⟩], ⟨0, 0⟩⟩

/-- C3: the claim fails on the code.  On a shape rotated 90 degrees, scaling x
from 1 to 2 moves the first vertex from world (0,1) to (0,2), and the
spec-described local-frame update moves the attached pin and anchor along with
it to (0,2); the code's setter instead scales pins and anchors directly in
world space and leaves them at (0,1), detached from the geometry. -/
theorem scale_set_ignores_rotation_bug :
    world_points shapeRot90 = [⟨0, 1⟩, ⟨0, -1⟩, ⟨-1, 0⟩] ∧
    shapeRot90.m_StaticPins = [⟨0, 1⟩] ∧
    world_points (scale_set shapeRot90 [2, 1]) = [⟨0, 2⟩, ⟨0, -2⟩, ⟨-1, 0⟩] ∧
    (scale_set shapeRot90 [2, 1]).m_StaticPins = [⟨0, 1⟩] ∧
    (scale_set shapeRot90 [2, 1]).anchors = [⟨"a", ⟨0, 1, 0⟩⟩] ∧
    (scale_set_spec shapeRot90 [2, 1]).m_StaticPins = [⟨0, 2⟩] ∧
    (scale_set_spec shapeRot90 [2, 1]).anchors = [⟨"a", ⟨0, 2, 0⟩⟩] ∧
    ((0 : ℚ), (1 : ℚ)) ≠ ((0 : ℚ), (2 : ℚ)) := by
  refine ⟨?_, rfl, ?_, ?_, ?_, ?_, ?_, by norm_num⟩ <;>
    norm_num [world_points, points_get, scale_set, scale_set_spec, shapeRot90, rotate]

/-- The `points` getter reads only the rotation, scale, flip and local points;
two states agreeing on those fields yield the same world-relative points. -/
theorem points_get_congr (sh sh' : CustomShapeState)
    (h1 : sh'.rotC = sh.rotC) (h2 : sh'.rotS = sh.rotS)
    (h3 : sh'.m_Scale = sh.m_Scale) (h4 : sh'.m_Flipped = sh.m_Flipped)
    (h5 : sh'.m_PointsLocalSpace = sh.m_PointsLocalSpace) :
    points_get sh' = points_get sh := by
  simp only [points_get, h1, h2, h3, h4, h5]

/-- Leftmost extent of the world-relative points, with the source's fold seeded
at 1000 (`game_objects.py` lines 391-393). -/
def bbox_left (sh : CustomShapeState) : ℚ :=
  (points_get sh).foldl (fun m p => min m p.x) 1000

/-- Rightmost extent, fold seeded at -1000. -/
def bbox_right (sh : CustomShapeState) : ℚ :=
  (points_get sh).foldl (fun m p => max m p.x) (-1000)

/-- Topmost extent (minimum y), fold seeded at 1000. -/
def bbox_top (sh : CustomShapeState) : ℚ :=
  (points_get sh).foldl (fun m p => min m p.y) 1000

/-- Bottommost extent (maximum y), fold seeded at -1000. -/
def bbox_bottom (sh : CustomShapeState) : ℚ :=
  (points_get sh).foldl (fun m p => max m p.y) (-1000)

/-- The `center` computed by `calculate_hitbox` (`game_objects.py` line 401):
the world-space center of the bounding box of the points, offset by the shape
position. -/
def bbox_center (sh : CustomShapeState) : Vec2 :=
  ⟨bbox_left sh + (bbox_right sh - bbox_left sh) / 2 + sh.m_Pos.x,
   bbox_top sh + (bbox_bottom sh - bbox_top sh) / 2 + sh.m_Pos.y⟩

/-- The geometric state effects of `CustomShape.calculate_hitbox`
(`game_objects.py` lines 388-420).  With `align_center` the position dict is
written directly (lines 403-404, bypassing the `pos` setter, so pins and
anchors are untouched), the world-relative points are re-expressed against the
new center through the `points` setter, and the center offset is zeroed;
without it only the center offset is recorded.  The pygame mask rasterized at
the end (lines 414-420) is outside the model. -/
def calculate_hitbox (sh : CustomShapeState) (align_center : Bool) : CustomShapeState :=
  let points_base := points_get sh
  let basepos := sh.m_Pos
  let center := bbox_center sh
  if align_center then
    let sh := { sh with m_Pos := ⟨center.x, center.y, basepos.z⟩ }
    let points_base := points_base.map (fun p =>
      (⟨p.x + basepos.x - center.x, p.y + basepos.y - center.y⟩ : Vec2))
    let sh := points_set sh points_base
    { sh with centerOffset := ⟨0, 0⟩ }
  else
    { sh with centerOffset := ⟨basepos.x - center.x, basepos.y - center.y⟩ }

/-- Vertex centroid (arithmetic mean) of a point list.  For a triangle this
coincides with the polygon's true (area) centroid. -/
def centroid (pts : List Vec2) : Vec2 :=
  ⟨(pts.map (fun p => p.x)).sum / pts.length,
   (pts.map (fun p => p.y)).sum / pts.length⟩

/-- The triangle shape of spec §8's concrete scenario: local points
(0,0), (2,0), (1,2), identity transform, position (5,5). -/
def shapeTri : CustomShapeState :=
  ⟨⟨5, 5, 0⟩, 1, 0, ⟨1, 1, 1⟩, false,
   [⟨0, 0⟩, ⟨2, 0⟩, ⟨1, 2⟩], [], [], [], ⟨0, 0⟩⟩

/-- C5, counterexample: the claim as stated is false — `calculate_hitbox` with
`align_center` moves the position to the center of the bounding box, not to
the polygon's true centroid.  For the triangle (0,0), (2,0), (1,2) at position
(5,5) the code yields position (6,6) while the true centroid of the world
vertices is (6, 17/3). -/
theorem calculate_hitbox_not_centroid :
    (calculate_hitbox shapeTri true).m_Pos = ⟨6, 6, 0⟩ ∧
    centroid (world_points shapeTri) = ⟨6, 17 / 3⟩ ∧
    ((6 : ℚ), (6 : ℚ)) ≠ ((6 : ℚ), (17 : ℚ) / 3) := by
  refine ⟨?_, ?_, by norm_num⟩ <;>
    norm_num [calculate_hitbox, bbox_center, bbox_left, bbox_right, bbox_top,
      bbox_bottom, points_get, points_set, world_points, centroid, shapeTri, rotate]

/-- C5, amended: `calculate_hitbox` with `align_center` moves the stored
position to the bounding-box center of the shape's points (as the code
computes it, folds seeded at ±1000), re-expresses the local points so that the
world-space polygon is unchanged, zeroes the recorded center offset, and
leaves every static pin and every bound anchor untouched — only the shape's
own geometry is re-centered. -/
theorem calculate_hitbox_align_center_spec (sh : CustomShapeState)
    (hrot : sh.rotC ^ 2 + sh.rotS ^ 2 = 1)
    (hsx : sh.m_Scale.x ≠ 0) (hsy : sh.m_Scale.y ≠ 0) :
    (calculate_hitbox sh true).m_StaticPins = sh.m_StaticPins ∧
    (calculate_hitbox sh true).anchors = sh.anchors ∧
    (calculate_hitbox sh true).centerOffset = ⟨0, 0⟩ ∧
    (calculate_hitbox sh true).m_Pos =
      ⟨(bbox_center sh).x, (bbox_center sh).y, sh.m_Pos.z⟩ ∧
    world_points (calculate_hitbox sh true) = world_points sh := by
  have hvs : points_get (calculate_hitbox sh true) =
      (points_get sh).map (fun p =>
        (⟨p.x + sh.m_Pos.x - (bbox_center sh).x,
          p.y + sh.m_Pos.y - (bbox_center sh).y⟩ : Vec2)) := by
    have hcongr : points_get (calculate_hitbox sh true) =
        points_get (points_set sh ((points_get sh).map (fun p =>
          (⟨p.x + sh.m_Pos.x - (bbox_center sh).x,
            p.y + sh.m_Pos.y - (bbox_center sh).y⟩ : Vec2)))) :=
      points_get_congr _ _ rfl rfl rfl rfl rfl
    rw [hcongr, points_get_points_set_eq sh _ hrot hsx hsy]
  refine ⟨rfl, rfl, rfl, rfl, ?_⟩
  have hpos : (calculate_hitbox sh true).m_Pos =
      ⟨(bbox_center sh).x, (bbox_center sh).y, sh.m_Pos.z⟩ := rfl
  simp only [world_points, hvs, hpos, List.map_map]
  refine List.map_congr_left fun p _ => ?_
  ext <;> simp

/-- Witness for C5's amended theorem at the concrete triangle shape. -/
theorem calculate_hitbox_align_center_spec_witness :
    shapeTri.rotC ^ 2 + shapeTri.rotS ^ 2 = 1 ∧
    (calculate_hitbox shapeTri true).m_StaticPins = shapeTri.m_StaticPins ∧
    (calculate_hitbox shapeTri true).anchors = shapeTri.anchors ∧
    (calculate_hitbox shapeTri true).centerOffset = ⟨0, 0⟩ ∧
    (calculate_hitbox shapeTri true).m_Pos =
      ⟨(bbox_center shapeTri).x, (bbox_center shapeTri).y, shapeTri.m_Pos.z⟩ ∧
    world_points (calculate_hitbox shapeTri true) = world_points shapeTri :=
  ⟨by norm_num [shapeTri],
   calculate_hitbox_align_center_spec shapeTri (by norm_num [shapeTri])
     (by norm_num [shapeTri]) (by norm_num [shapeTri])⟩

/-- `quaternion(x, y, z)` from `game_objects.py` (lines 62-81), parametrized by
the cosines and sines of the three half angles (`cx = cos(x/2)` etc.), which is
exactly how the source consumes the angles. -/
def quaternionCS (cx sx cy sy cz sz : ℚ) : ℚ × ℚ × ℚ × ℚ :=
  (sx * cy * cz - cx * sy * sz,
   cx * sy * cz + sx * cy * sz,
   cx * cy * sz - sx * sy * cz,
   cx * cy * cz + sx * sy * sz)

/-- The first `atan2` argument of `euler_angles` (`game_objects.py` line 87):
`sx_cy = 2 * (qw * qx + qy * qz)`. -/
def euler_x_sin_arg (qx qy qz qw : ℚ) : ℚ := 2 * (qw * qx + qy * qz)

/-- The second `atan2` argument of `euler_angles` as the source computes it
(`game_objects.py` line 88): `cx_cy = 1 - 2 * (qx**2 + qy**1)` — note the
first power on `qy`. -/
def euler_x_cos_arg (qx qy : ℚ) : ℚ := 1 - 2 * (qx ^ 2 + qy ^ 1)

/-- Modelled from the spec: the standard aerospace formula for the same term,
`1 - 2 * (qx**2 + qy**2)` (the spec's open question names the source's
`qy**1` a likely defect). -/
def euler_x_cos_arg_std (qx qy : ℚ) : ℚ := 1 - 2 * (qx ^ 2 + qy ^ 2)

/-- The `asin` argument for the y angle (`game_objects.py` line 91). -/
def euler_y_sin_arg (qx qy qz qw : ℚ) : ℚ := 2 * (qw * qy - qz * qx)

/-- C4: the claim fails on the code.  Take x = y = 2*arcsin(3/5) (about 73.74
degrees, so y is strictly inside (-90, 90)) and z = 0; the half-angle data are
(cx, sx) = (cy, sy) = (4/5, 3/5), (cz, sz) = (1, 0), and the source's
`quaternion` yields (12/25, 12/25, -9/25, 16/25).  Recovering x, the source's
`cx_cy` term is -263/625 < 0 while `sx_cy` is 168/625 > 0, so `atan2` returns
an angle strictly greater than 90 degrees — but the original x is below 90
degrees (its cosine, 7/25, and sine, 24/25, are both positive, matching the
standard term 49/625 > 0).  The round trip therefore cannot return x; the
standard formula (spec) and the code differ exactly in this term. -/
theorem euler_x_cos_arg_bug :
    quaternionCS (4/5) (3/5) (4/5) (3/5) 1 0 = (12/25, 12/25, -9/25, 16/25) ∧
    euler_x_sin_arg (12/25) (12/25) (-9/25) (16/25) = 168 / 625 ∧
    euler_x_cos_arg (12/25) (12/25) = -263 / 625 ∧
    euler_x_cos_arg_std (12/25) (12/25) = 49 / 625 ∧
    euler_y_sin_arg (12/25) (12/25) (-9/25) (16/25) = 24 / 25 ∧
    euler_x_cos_arg (12/25) (12/25) < 0 ∧ 0 < euler_x_cos_arg_std (12/25) (12/25) ∧
    euler_x_cos_arg (12/25) (12/25) ≠ euler_x_cos_arg_std (12/25) (12/25) := by
  norm_num [quaternionCS, euler_x_sin_arg, euler_x_cos_arg, euler_x_cos_arg_std,
    euler_y_sin_arg]

/-- `closest_point(l1, l2, p)` from `game_objects.py` (lines 105-129).  The
Python computes the segment slope `s1` inside a try block; a vertical segment
raises on computing `s1` and a horizontal one on `-1 / s1`, and both land in
the except branch, which re-dispatches on `l2.x - l1.x == 0`.  The model
branches exactly where the Python raises; within each branch the arithmetic is
division-safe, so no division by zero reaches a caller. -/
def closest_point (l1 l2 p : Vec2) : Option Vec2 :=
  if l2.x - l1.x = 0 then
    if (l1.y ≤ p.y ∧ p.y ≤ l2.y) ∨ (l2.y ≤ p.y ∧ p.y ≤ l1.y) then
      some ⟨l1.x, p.y⟩
    else
      none
  else if (l2.y - l1.y) / (l2.x - l1.x) = 0 then
    if (l1.x ≤ p.x ∧ p.x ≤ l2.x) ∨ (l2.x ≤ p.x ∧ p.x ≤ l1.x) then
      some ⟨p.x, l1.y⟩
    else
      none
  else
    let s1 := (l2.y - l1.y) / (l2.x - l1.x)
    let s2 := -1 / s1
    let a1 := l1.y - l1.x * s1
    let a2 := p.y - p.x * s2
    let x := -(a2 - a1) / (s2 - s1)
    if (l1.x ≤ x ∧ x ≤ l2.x) ∨ (l2.x ≤ x ∧ x ≤ l1.x) then
      some ⟨x, s1 * x + a1⟩
    else
      none

/-- The perpendicular foot of `p` on the line through `l1` and `l2`:
the projection `l1 + t * (l2 - l1)` with `t = ((p - l1) . (l2 - l1)) / |l2 - l1|^2`. -/
def perpFoot (l1 l2 p : Vec2) : Vec2 :=
  ⟨l1.x + ((p.x - l1.x) * (l2.x - l1.x) + (p.y - l1.y) * (l2.y - l1.y)) /
      ((l2.x - l1.x) ^ 2 + (l2.y - l1.y) ^ 2) * (l2.x - l1.x),
   l1.y + ((p.x - l1.x) * (l2.x - l1.x) + (p.y - l1.y) * (l2.y - l1.y)) /
      ((l2.x - l1.x) ^ 2 + (l2.y - l1.y) ^ 2) * (l2.y - l1.y)⟩

/-- The x coordinate produced in the general branch of `closest_point` is the
perpendicular foot's x coordinate (stated over abstract deltas `dx`, `dy`). -/
theorem foot_formula_x (A B px py dx dy : ℚ) (hdx : dx ≠ 0) (hdy : dy ≠ 0) :
    -((py - px * (-1 / (dy / dx))) - (B - A * (dy / dx))) / (-1 / (dy / dx) - dy / dx)
      = A + ((px - A) * dx + (py - B) * dy) / (dx ^ 2 + dy ^ 2) * dx := by
  have h2 : dx ^ 2 + dy ^ 2 ≠ 0 := by positivity
  have hs : -1 / (dy / dx) - dy / dx = -((dx ^ 2 + dy ^ 2) / (dx * dy)) := by
    field_simp
    ring
  rw [hs, div_neg]
  field_simp
  ring

/-- Evaluating the segment's line at the foot's x gives the foot's y. -/
theorem foot_formula_y (A B px py dx dy : ℚ) (hdx : dx ≠ 0) (hdy : dy ≠ 0) :
    dy / dx * (A + ((px - A) * dx + (py - B) * dy) / (dx ^ 2 + dy ^ 2) * dx)
        + (B - A * (dy / dx))
      = B + ((px - A) * dx + (py - B) * dy) / (dx ^ 2 + dy ^ 2) * dy := by
  have h2 : dx ^ 2 + dy ^ 2 ≠ 0 := by positivity
  field_simp
  ring

/-- On a slanted segment `closest_point` returns exactly the perpendicular
foot, gated by the segment's x range. -/
theorem closest_point_slanted (l1 l2 p : Vec2)
    (hdx : l2.x - l1.x ≠ 0) (hdy : l2.y - l1.y ≠ 0) :
    closest_point l1 l2 p =
      if (l1.x ≤ (perpFoot l1 l2 p).x ∧ (perpFoot l1 l2 p).x ≤ l2.x) ∨
         (l2.x ≤ (perpFoot l1 l2 p).x ∧ (perpFoot l1 l2 p).x ≤ l1.x)
      then some (perpFoot l1 l2 p) else none := by
  have hs1 : (l2.y - l1.y) / (l2.x - l1.x) ≠ 0 := div_ne_zero hdy hdx
  have hfx := foot_formula_x l1.x l1.y p.x p.y (l2.x - l1.x) (l2.y - l1.y) hdx hdy
  have hfy := foot_formula_y l1.x l1.y p.x p.y (l2.x - l1.x) (l2.y - l1.y) hdx hdy
  simp only [closest_point, if_neg hdx, if_neg hs1, perpFoot, hfx, hfy]

/-- C6, amended: `closest_point` returns the perpendicular foot of `p` on the
line through the endpoints, restricted to the segment's bounding range on one
axis (the y range for vertical segments, checked through `p.y`, which equals
the foot's y there; the x range otherwise), and returns none when the foot
falls outside that range; vertical/horizontal segments are dispatched to the
axis-aligned branches, so no division by zero propagates (the model is total).
For a degenerate segment, however, the vertical branch applies: the result is
the segment's point when `p.y` equals the segment's y, and none otherwise —
not unconditionally none as the claim states. -/
theorem closest_point_foot_spec (l1 l2 p : Vec2) :
    (l1 = l2 →
      closest_point l1 l2 p = if p.y = l1.y then some ⟨l1.x, p.y⟩ else none) ∧
    (l1.x = l2.x → l1 ≠ l2 →
      closest_point l1 l2 p =
        if (l1.y ≤ p.y ∧ p.y ≤ l2.y) ∨ (l2.y ≤ p.y ∧ p.y ≤ l1.y)
        then some (perpFoot l1 l2 p) else none) ∧
    (l1.x ≠ l2.x →
      closest_point l1 l2 p =
        if (l1.x ≤ (perpFoot l1 l2 p).x ∧ (perpFoot l1 l2 p).x ≤ l2.x) ∨
           (l2.x ≤ (perpFoot l1 l2 p).x ∧ (perpFoot l1 l2 p).x ≤ l1.x)
        then some (perpFoot l1 l2 p) else none) := by
  refine ⟨?_, ?_, ?_⟩
  · intro h
    subst h
    by_cases hp : p.y = l1.y
    · simp [closest_point, hp, le_refl]
    · have hcond : ¬ ((l1.y ≤ p.y ∧ p.y ≤ l1.y) ∨ (l1.y ≤ p.y ∧ p.y ≤ l1.y)) := by
        rintro (⟨h1, h2⟩ | ⟨h1, h2⟩) <;> exact hp (le_antisymm h2 h1)
      simp only [closest_point, sub_self]
      rw [if_pos trivial, if_neg hcond, if_neg hp]
  · intro hx hne
    have hdy : l2.y - l1.y ≠ 0 := by
      intro h0
      exact hne (Vec2.ext hx (by linarith [sub_eq_zero.mp h0]))
    have hdx0 : l2.x - l1.x = 0 := by rw [hx, sub_self]
    have hfoot : perpFoot l1 l2 p = ⟨l1.x, p.y⟩ := by
      ext
      · simp [perpFoot, hdx0]
      · simp only [perpFoot, hdx0]
        field_simp
        ring
    rw [hfoot]
    simp [closest_point, hdx0]
  · intro hx
    have hdx : l2.x - l1.x ≠ 0 := sub_ne_zero.mpr (Ne.symm hx)
    by_cases hdy : l2.y - l1.y = 0
    · have hfoot : perpFoot l1 l2 p = ⟨p.x, l1.y⟩ := by
        ext
        · simp only [perpFoot, hdy]
          field_simp
          ring
        · simp [perpFoot, hdy]
      rw [hfoot]
      simp [closest_point, if_neg hdx, hdy]
    · exact closest_point_slanted l1 l2 p hdx hdy

/-- Witness for C6's amended theorem: on the segment (0,0)-(2,2) with query
point (2,0) the returned point is the foot (1,1); on a degenerate segment at
(0,0) with query point (5,1) the result is none. -/
theorem closest_point_foot_spec_witness :
    closest_point ⟨0, 0⟩ ⟨2, 2⟩ ⟨2, 0⟩ = some ⟨1, 1⟩ ∧
    closest_point ⟨0, 0⟩ ⟨0, 0⟩ ⟨5, 1⟩ = none := by
  constructor
  · have hf : perpFoot ⟨0, 0⟩ ⟨2, 2⟩ ⟨2, 0⟩ = ⟨1, 1⟩ := by
      ext <;> norm_num [perpFoot]
    have h := (closest_point_foot_spec ⟨0, 0⟩ ⟨2, 2⟩ ⟨2, 0⟩).2.2 (by norm_num)
    rw [hf] at h
    rw [h, if_pos (by norm_num)]
  · have h := (closest_point_foot_spec ⟨0, 0⟩ ⟨0, 0⟩ ⟨5, 1⟩).1 rfl
    rw [h, if_neg (by norm_num)]

/-- C6, counterexample: the claim as stated is false — for a degenerate
segment the function does not always return no result: with both endpoints at
(0,0) and query point (5,0) (same y as the segment), it returns some (0,0)
instead of none. -/
theorem closest_point_degenerate_some :
    closest_point ⟨0, 0⟩ ⟨0, 0⟩ ⟨5, 0⟩ = some ⟨0, 0⟩ ∧
    some (⟨0, 0⟩ : Vec2) ≠ none := by
  refine ⟨?_, by simp⟩
  norm_num [closest_point]

/-- Python's built-in `round`: nearest integer, ties to the even integer. -/
def pyRound (q : ℚ) : ℤ :=
  let f := ⌊q⌋
  let r := q - f
  if r < 1 / 2 then f
  else if 1 / 2 < r then f + 1
  else if f % 2 = 0 then f else f + 1

/-- The state of a `SelectableObject` that `collidepoint` reads
(`game_objects.py` lines 162-182): position, the built hit mask (its size and
its bit lookup), the recorded center offset, and the zoom and camera stored by
the last render pass. -/
structure SelState where
  pos : Vec3
  hitboxW : ℤ
  hitboxH : ℤ
  hitboxGet : ℤ → ℤ → Bool
  centerOffset : Vec2
  lastZoom : ℚ
  lastCamera : Vec2

/-- The raster x coordinate computed by `collidepoint`
(`game_objects.py` lines 178-179); `HITBOX_RESOLUTION = 40`. -/
def rasterX (s : SelState) (point : Vec2) : ℤ :=
  pyRound ((point.x / s.lastZoom - s.lastCamera.x - s.pos.x + s.centerOffset.x) * 40
    + (s.hitboxW : ℚ) / 2)

/-- The raster y coordinate computed by `collidepoint`
(`game_objects.py` lines 180-181); note the sign conventions differ from x. -/
def rasterY (s : SelState) (point : Vec2) : ℤ :=
  pyRound ((point.y / s.lastZoom + s.lastCamera.y + s.pos.y + s.centerOffset.y) * 40
    + (s.hitboxH : ℚ) / 2)

/-- `SelectableObject.collidepoint` (`game_objects.py` lines 176-182): look the
raster coordinate up in the mask when it is in bounds, and report no hit
otherwise. -/
def collidepoint (s : SelState) (point : Vec2) : Bool :=
  if 0 ≤ rasterX s point ∧ rasterX s point < s.hitboxW ∧
     0 ≤ rasterY s point ∧ rasterY s point < s.hitboxH then
    s.hitboxGet (rasterX s point) (rasterY s point)
  else
    false

/-- C7: `collidepoint` maps the query point into the mask's raster space using
the last-seen zoom and camera; when the raster coordinate falls outside the
mask bounds (negative, or at/after the width or height) the query returns
false rather than erroring, and only in-bounds coordinates reach the mask
lookup. -/
theorem collidepoint_out_of_bounds_false (s : SelState) (point : Vec2) :
    (¬ (0 ≤ rasterX s point ∧ rasterX s point < s.hitboxW ∧
        0 ≤ rasterY s point ∧ rasterY s point < s.hitboxH) →
      collidepoint s point = false) ∧
    ((0 ≤ rasterX s point ∧ rasterX s point < s.hitboxW ∧
        0 ≤ rasterY s point ∧ rasterY s point < s.hitboxH) →
      collidepoint s point = s.hitboxGet (rasterX s point) (rasterY s point)) := by
  constructor
  · intro h
    simp [collidepoint, h]
  · intro h
    simp [collidepoint, h]

/-- A concrete 10x10 mask that reports a hit everywhere, rendered at zoom 1
with camera (0,0). -/
def fullMaskState : SelState :=
  ⟨⟨0, 0, 0⟩, 10, 10, fun _ _ => true, ⟨0, 0⟩, 1, ⟨0, 0⟩⟩

/-- Witness for C7: the point (1000, 0) maps to raster x = 40005, far outside
the 10x10 mask, and the query returns false even though the mask itself would
report a hit at every in-bounds coordinate. -/
theorem collidepoint_out_of_bounds_false_witness :
    ¬ (0 ≤ rasterX fullMaskState ⟨1000, 0⟩ ∧
       rasterX fullMaskState ⟨1000, 0⟩ < fullMaskState.hitboxW ∧
       0 ≤ rasterY fullMaskState ⟨1000, 0⟩ ∧
       rasterY fullMaskState ⟨1000, 0⟩ < fullMaskState.hitboxH) ∧
    collidepoint fullMaskState ⟨1000, 0⟩ = false := by
  have hx : rasterX fullMaskState ⟨1000, 0⟩ = 40005 := by
    norm_num [rasterX, pyRound, fullMaskState]
  have h : ¬ (0 ≤ rasterX fullMaskState ⟨1000, 0⟩ ∧
      rasterX fullMaskState ⟨1000, 0⟩ < fullMaskState.hitboxW ∧
      0 ≤ rasterY fullMaskState ⟨1000, 0⟩ ∧
      rasterY fullMaskState ⟨1000, 0⟩ < fullMaskState.hitboxH) := by
    rw [hx]
    rintro ⟨-, h2, -⟩
    norm_num [fullMaskState] at h2
  exact ⟨h, (collidepoint_out_of_bounds_false fullMaskState ⟨1000, 0⟩).1 h⟩

/-- `CustomShape.del_point` (`game_objects.py` lines 524-529): read the world
points, remove the indexed one, write the list back, and re-center via
`calculate_hitbox(True)`. -/
def del_point (sh : CustomShapeState) (i : ℕ) : CustomShapeState :=
  calculate_hitbox (points_set sh ((points_get sh).eraseIdx i)) true

/-- The right-click delete-point path of the editor for one shape
(`editor.py` lines 296-306): a shape with three or fewer points is skipped
(`continue`) before any vertex lookup; otherwise the clicked vertex index is
deleted via `del_point`. -/
def right_click_delete (sh : CustomShapeState) (i : ℕ) : CustomShapeState :=
  if (points_get sh).length ≤ 3 then sh else del_point sh i

/-- C8: deleting a vertex from a shape with three (or fewer) points is refused
as a no-op: the handler skips the shape entirely, so its state — in particular
its stored point list — is unchanged. -/
theorem right_click_delete_min_guard (sh : CustomShapeState) (i : ℕ)
    (h : sh.m_PointsLocalSpace.length ≤ 3) :
    right_click_delete sh i = sh ∧
    (right_click_delete sh i).m_PointsLocalSpace = sh.m_PointsLocalSpace := by
  have hlen : (points_get sh).length ≤ 3 := by
    simpa [points_get] using h
  rw [right_click_delete, if_pos hlen]
  exact ⟨rfl, rfl⟩

/-- Witness for C8: the 3-point triangle shape is returned unchanged for any
clicked index. -/
theorem right_click_delete_min_guard_witness :
    shapeTri.m_PointsLocalSpace.length ≤ 3 ∧
    right_click_delete shapeTri 0 = shapeTri :=
  ⟨by norm_num [shapeTri],
   (right_click_delete_min_guard shapeTri 0 (by norm_num [shapeTri])).1⟩

/-- Writing a new position to the anchor with a given identifier, through the
global anchor registry (`Anchor.pos` setter applied to the anchor object whose
`m_Guid` matches; identity is the guid). -/
def setAnchorPos (l : List AnchorState) (g : String) (p : Vec3) : List AnchorState :=
  l.map (fun a => if a.m_Guid = g then ⟨a.m_Guid, p⟩ else a)

/-- The `K_c` copy handler of the editor for one selected `CustomShape`
(`editor.py` lines 407-424): deep-copy the shape's dictionary; for each bound
anchor id, deep-copy every matching anchor in the global list under a freshly
generated identifier (`uuid4`, modelled by the supply `freshId`); extend the
global anchor list with the copies; point the duplicate's id set and anchor
list at the copies; then move the duplicate by (+1, -1) through the
`CustomShape.pos` setter, which also shifts the duplicated pins and the new
anchors (the objects appended to the global list are the same Python objects,
so the global copies are shifted too). -/
def copy_shape (anchors : List AnchorState) (old : CustomShapeState)
    (freshId : ℕ → String) : List AnchorState × CustomShapeState :=
  let matched := (old.m_DynamicAnchorGuids.map
    (fun gid => anchors.filter (fun a => a.m_Guid == gid))).flatten
  let new_anchors := matched.enum.map
    (fun ka => AnchorState.mk (freshId ka.1) ka.2.m_Pos)
  let newShape := { old with
    m_DynamicAnchorGuids := new_anchors.map (fun a => a.m_Guid),
    anchors := new_anchors }
  let newShape := cs_pos_set newShape [newShape.m_Pos.x + 1, newShape.m_Pos.y - 1]
  (anchors ++ newShape.anchors, newShape)

/-- Overwriting the position of an anchor with identifier `g` leaves the
filtered view of any other identifier `gid` untouched. -/
theorem setAnchorPos_filter_ne (l : List AnchorState) (g gid : String) (p : Vec3)
    (hne : g ≠ gid) :
    (setAnchorPos l g p).filter (fun a => a.m_Guid == gid) =
      l.filter (fun a => a.m_Guid == gid) := by
  induction l with
  | nil => rfl
  | cons a t ih =>
    simp only [setAnchorPos] at ih ⊢
    by_cases hag : a.m_Guid = g
    · have hnotgid : (a.m_Guid == gid) = false := by
        rw [hag]
        exact beq_eq_false_iff_ne.mpr hne
      have hg2 : (g == gid) = false := beq_eq_false_iff_ne.mpr hne
      simp [List.filter_cons, hag, hnotgid, hg2, ih]
    · simp only [List.map_cons, List.filter_cons, if_neg hag]
      rw [ih]

/-- C9: duplicating a shape with bound anchors, with a fresh-identifier supply
(no generated id collides with an existing anchor id), yields a duplicate
whose every anchor identifier differs from every existing anchor id — in
particular from every identifier of the source's anchors — whose position is
the source position offset by (+1, -1) with z preserved, and whose anchors
are independent copies: writing any position to any of the duplicate's anchor
ids leaves the registry entries of every source anchor id unchanged. -/
theorem copy_shape_fresh_anchor_independence
    (anchors : List AnchorState) (old : CustomShapeState) (freshId : ℕ → String)
    (hfresh : ∀ k, freshId k ∉ anchors.map (fun a => a.m_Guid))
    (hsub : ∀ g ∈ old.m_DynamicAnchorGuids, g ∈ anchors.map (fun a => a.m_Guid)) :
    (∀ g ∈ (copy_shape anchors old freshId).2.m_DynamicAnchorGuids,
        g ∉ anchors.map (fun a => a.m_Guid)) ∧
    (∀ g ∈ (copy_shape anchors old freshId).2.m_DynamicAnchorGuids,
        g ∉ old.m_DynamicAnchorGuids) ∧
    (copy_shape anchors old freshId).2.m_Pos =
      ⟨old.m_Pos.x + 1, old.m_Pos.y - 1, old.m_Pos.z⟩ ∧
    (∀ g ∈ (copy_shape anchors old freshId).2.m_DynamicAnchorGuids, ∀ p : Vec3,
      ∀ gid ∈ old.m_DynamicAnchorGuids,
        (setAnchorPos (copy_shape anchors old freshId).1 g p).filter
            (fun a => a.m_Guid == gid) =
          (copy_shape anchors old freshId).1.filter (fun a => a.m_Guid == gid)) := by
  have hids : ∀ g ∈ (copy_shape anchors old freshId).2.m_DynamicAnchorGuids,
      ∃ k, g = freshId k := by
    intro g hg
    simp only [copy_shape, cs_pos_set, List.map_map, List.mem_map] at hg
    obtain ⟨ka, -, hka⟩ := hg
    exact ⟨ka.1, hka.symm⟩
  have hnotex : ∀ g ∈ (copy_shape anchors old freshId).2.m_DynamicAnchorGuids,
      g ∉ anchors.map (fun a => a.m_Guid) := by
    intro g hg
    obtain ⟨k, rfl⟩ := hids g hg
    exact hfresh k
  refine ⟨hnotex, ?_, ?_, ?_⟩
  · intro g hg hmem
    exact hnotex g hg (hsub g hmem)
  · simp [copy_shape, cs_pos_set, pos_set]
  · intro g hg p gid hgid
    refine setAnchorPos_filter_ne _ g gid p ?_
    intro hggid
    exact hnotex g hg (hggid ▸ hsub gid hgid)

/-- The one-anchor registry used to witness C9. -/
def anchorsW : List AnchorState := [⟨"a1", ⟨0, 0, 0⟩⟩]

/-- A shape bound to the anchor "a1", used to witness C9. -/
def shapeW : CustomShapeState :=
  ⟨⟨0, 0, 0⟩, 1, 0, ⟨1, 1, 1⟩, false,
   [⟨0, 0⟩, ⟨1, 0⟩, ⟨0, 1⟩], [], ["a1"], [⟨"a1", ⟨0, 0, 0⟩⟩], ⟨0, 0⟩⟩

/-- Witness for C9 with the constant fresh-id supply "b": the duplicate sits
at (1, -1, 0), and writing (9, 9, 9) to its anchor "b" leaves the registry's
view of the source anchor "a1" unchanged. -/
theorem copy_shape_fresh_anchor_independence_witness :
    (∀ k : ℕ, (fun _ : ℕ => "b") k ∉ anchorsW.map (fun a => a.m_Guid)) ∧
    (copy_shape anchorsW shapeW (fun _ => "b")).2.m_Pos = ⟨1, -1, 0⟩ ∧
    (setAnchorPos (copy_shape anchorsW shapeW (fun _ => "b")).1 "b" ⟨9, 9, 9⟩).filter
        (fun a => a.m_Guid == "a1") =
      (copy_shape anchorsW shapeW (fun _ => "b")).1.filter
        (fun a => a.m_Guid == "a1") := by
  have hfresh : ∀ k : ℕ, (fun _ : ℕ => "b") k ∉ anchorsW.map (fun a => a.m_Guid) := by
    intro k
    simp [anchorsW]
  have hsub : ∀ g ∈ shapeW.m_DynamicAnchorGuids,
      g ∈ anchorsW.map (fun a => a.m_Guid) := by
    intro g hg
    simp only [shapeW, List.mem_singleton] at hg
    simp [anchorsW, hg]
  have h := copy_shape_fresh_anchor_independence anchorsW shapeW (fun _ => "b")
    hfresh hsub
  have hPos : (copy_shape anchorsW shapeW (fun _ => "b")).2.m_Pos = ⟨1, -1, 0⟩ := by
    rw [h.2.2.1]
    norm_num [shapeW]
  refine ⟨hfresh, hPos, ?_⟩
  refine h.2.2.2 "b" ?_ ⟨9, 9, 9⟩ "a1" (by simp [shapeW])
  simp [copy_shape, cs_pos_set, anchorsW, shapeW]

end PolyEditor
